import Mathlib

/-!
Verification development for the credential-authentication subsystem of
mongodb-core: the generic multi-connection authentication coordinator
(`lib/auth/auth_provider.js`) and the SCRAM-SHA mechanism (`scram.js`).

Conventions of the shallow embedding:
* Buffers are `List Nat` of byte values; `Buffer.from(array)` masks each
  entry with `% 256`.
* JavaScript strings are Lean `String`s.  The payloads exchanged here are
  ASCII, where UTF-8 bytes coincide with code points.
* Fields that JavaScript leaves `undefined` are `Option`s; JavaScript
  truthiness of an optional string field is "present and non-empty".
* A `none` result of a model function marks a run in which the JavaScript
  would dereference `undefined`/`null` and throw a `TypeError`; theorems
  restrict to runs where this does not happen.
* External crypto primitives (node `crypto`: pbkdf2, HMAC, hashes, MD5)
  are opaque parameters: the repository only wraps them.
-/

abbrev Bytes := List Nat

/-- JavaScript truthiness of an optional string field: present and non-empty. -/
def jsTruthyS : Option String → Bool
  | none => false
  | some s => s != ""

/-- The standard base64 alphabet used by node `Buffer.toString('base64')`. -/
def b64Chars : List Char :=
  "ABCDEFGHIJKLMNOPQRSTUVWXYZabcdefghijklmnopqrstuvwxyz0123456789+/".data

def b64Char (n : Nat) : Char := (b64Chars[n]?).getD 'A'

def base64EncodeAux : Bytes → List Char
  | x :: y :: z :: rest =>
    b64Char (x / 4) :: b64Char (x % 4 * 16 + y / 16) ::
      b64Char (y % 16 * 4 + z / 64) :: b64Char (z % 64) :: base64EncodeAux rest
  | [x, y] => [b64Char (x / 4), b64Char (x % 4 * 16 + y / 16), b64Char (y % 16 * 4), '=']
  | [x] => [b64Char (x / 4), b64Char (x % 4 * 16), '=', '=']
  | [] => []

/-- `Buffer.from(bytes).toString('base64')`; `Buffer.from` masks entries to bytes. -/
def base64Encode (bs : Bytes) : String :=
  String.mk (base64EncodeAux (bs.map (fun b => b % 256)))

def b64Val (c : Char) : Option Nat := b64Chars.findIdx? (fun d => d == c)

def base64DecodeAux : List Nat → Bytes
  | a :: b :: c :: d :: rest =>
    (a * 4 + b / 16) :: (b % 16 * 16 + c / 4) :: (c % 4 * 64 + d) :: base64DecodeAux rest
  | [a, b, c] => [a * 4 + b / 16, b % 16 * 16 + c / 4]
  | [a, b] => [a * 4 + b / 16]
  | _ => []

/-- `Buffer.from(s, 'base64')`: node ignores characters outside the alphabet
(including the `=` padding) and decodes the remaining sextets. -/
def base64Decode (s : String) : Bytes :=
  base64DecodeAux (s.data.filterMap b64Val)

/-- `Buffer.from(s, 'utf8')` for the ASCII strings handled here: code points. -/
def strBytes (s : String) : Bytes := s.data.map Char.toNat

/-- JavaScript `String.prototype.replace` with a *string* pattern: it
replaces only the first occurrence of the pattern. -/
def jsReplaceFirstAux (pat rep : List Char) : List Char → List Char
  | [] => []
  | c :: rest =>
    if pat.isPrefixOf (c :: rest) then rep ++ List.drop pat.length (c :: rest)
    else c :: jsReplaceFirstAux pat rep rest

def jsReplaceFirst (s pat rep : String) : String :=
  String.mk (jsReplaceFirstAux pat.data rep.data s.data)

/-- `username.replace('=', '=3D').replace(',', '=2C')` from `_executeScram`. -/
def escapeUsername (u : String) : String :=
  jsReplaceFirst (jsReplaceFirst u "=" "=3D") "," "=2C"

def specEscapeChar (c : Char) : List Char :=
  if c = '=' then "=3D".data else if c = ',' then "=2C".data else [c]

def specEscapeChars : List Char → List Char
  | [] => []
  | c :: rest => specEscapeChar c ++ specEscapeChars rest

/-- Follows the words of the specification (claim C2): in a single pass,
every `=` becomes `=3D` and every `,` becomes `=2C`.  Kept separate from
`escapeUsername`, which embeds the source. -/
def specEscapeAll (u : String) : String := String.mk (specEscapeChars u.data)

/-- `s.split(c)` of JavaScript on a single-character separator: splitting
`""` gives `[""]`, and adjacent separators produce empty segments. -/
def splitOnChar (c : Char) : List Char → List (List Char)
  | [] => [[]]
  | d :: rest =>
    let r := splitOnChar c rest
    if d = c then [] :: r
    else (d :: r.headD []) :: r.tail

/-- `parsePayload`: split on `,`, then each part on `=`; the key is the part
before the first `=`, the value the segment between the first and second `=`
(possibly `undefined`). Later assignments to the same key overwrite earlier. -/
def parsePayload (payload : String) : List (String × Option String) :=
  (splitOnChar ',' payload.data).map (fun part =>
    let vp := splitOnChar '=' part
    (String.mk (vp.headD []), (vp[1]?).map String.mk))

/-- Property read from the dictionary built by `parsePayload`: the last
assignment wins; a missing key and an `undefined` value both read as `none`. -/
def dictGet (d : List (String × Option String)) (k : String) : Option String :=
  match d.reverse.find? (fun p => p.1 == k) with
  | some p => p.2
  | none => none

def leadingNatVal (cs : List Char) : Option Nat :=
  let ds := cs.takeWhile Char.isDigit
  if ds.isEmpty then none
  else some (ds.foldl (fun a c => a * 10 + (c.toNat - 48)) 0)

def jsParseIntChars : List Char → Option Int
  | '-' :: rest => (leadingNatVal rest).map (fun n => -(n : Int))
  | '+' :: rest => (leadingNatVal rest).map (fun n => (n : Int))
  | cs => (leadingNatVal cs).map (fun n => (n : Int))

/-- `parseInt(x, 10)`; `none` is `NaN` (also the result on `undefined`). -/
def jsParseInt : Option String → Option Int
  | none => none
  | some s =>
    jsParseIntChars (s.data.dropWhile (fun c => c == ' ' || c == '\t' || c == '\n' || c == '\r'))

/-- Decimal rendering of a JavaScript number as used in template strings and
`Array.prototype.join`; `none` renders as `NaN`. -/
def jsNumRepr : Option Int → String
  | none => "NaN"
  | some n => toString n

/-- JavaScript truthiness of a number: `NaN` and `0` are falsy. -/
def truthyNum : Option Int → Bool
  | none => false
  | some n => n != 0

/-- Template interpolation of a possibly-`undefined` string. -/
def jsUndefStr : Option String → String
  | none => "undefined"
  | some s => s

inductive CryptoMethod
  | sha1
  | sha256
deriving DecidableEq

def hiLengthMap : CryptoMethod → Nat
  | .sha256 => 32
  | .sha1 => 20

/-- Opaque model of `crypto.pbkdf2Sync(data, salt, iterations, keylen, digest)`. -/
abbrev Pbkdf2Fn := String → Bytes → Option Int → Nat → CryptoMethod → Bytes

/-- The module-wide `_hiCache` map together with `_hiCacheCount`. -/
structure HIState where
  cache : List (String × Bytes)
  count : Nat
deriving DecidableEq

/-- `[data, salt.toString('base64'), iterations].join('_')`. -/
def hiKey (data : String) (salt : Bytes) (iterations : Option Int) : String :=
  data ++ "_" ++ base64Encode salt ++ "_" ++ jsNumRepr iterations

def cacheLookup (cache : List (String × Bytes)) (k : String) : Option Bytes :=
  (cache.find? (fun p => p.1 == k)).map (fun p => p.2)

/-- `HI(data, salt, iterations, cryptoMethod)`: memoized salted-password
derivation.  A hit returns the cached bytes untouched; a miss runs pbkdf2,
purges the whole cache once the insertion counter has reached 200, then
inserts. -/
def HI (pbkdf2 : Pbkdf2Fn) (data : String) (salt : Bytes) (iterations : Option Int)
    (cryptoMethod : CryptoMethod) (st : HIState) : Bytes × HIState :=
  let key := hiKey data salt iterations
  match cacheLookup st.cache key with
  | some v => (v, st)
  | none =>
    let saltedData := pbkdf2 data salt iterations (hiLengthMap cryptoMethod) cryptoMethod
    let st1 := if 200 ≤ st.count then HIState.mk [] 0 else st
    (saltedData, HIState.mk ((key, saltedData) :: st1.cache) (st1.count + 1))

/-- `a[i]` on an array/buffer: out-of-range reads are `undefined`, which the
`^` operator coerces to `0`. -/
def jsIdx (l : Bytes) (i : Nat) : Nat := (l[i]?).getD 0

/-- The byte-wise core of the source `xor` helper: entry-wise `^` up to the
longer length, the shorter operand reading as zero. -/
def xorBytes (a b : Bytes) : Bytes :=
  (List.range (max a.length b.length)).map (fun i => Nat.xor (jsIdx a i) (jsIdx b i))

/-- An argument to `xor`: either already a Buffer, or a string that
`Buffer.from` coerces through UTF-8. -/
inductive BufOrStr
  | buf (b : Bytes)
  | str (s : String)

def toBuffer : BufOrStr → Bytes
  | .buf b => b
  | .str s => strBytes s

/-- The source `xor(a, b)`: coerce, xor byte-wise, and return the result
*base64-encoded as a string* (`Buffer.from(res).toString('base64')`). -/
def jsXor (a b : BufOrStr) : String :=
  base64Encode (xorBytes (toBuffer a) (toBuffer b))

/-- A JavaScript value as far as the fields handled here are inspected. -/
inductive JsLite
  | undef
  | bool (b : Bool)
  | num (n : Int)
  | str (s : String)
deriving DecidableEq

/-- The `result` document of a server reply, restricted to the fields the
source reads: `payload.value()` (as the binary string), `conversationId`,
`done`, and the driver error fields. -/
structure CmdResult where
  payload : Option String := none
  conversationId : JsLite := .undef
  done : JsLite := .undef
  dollarErr : Option String := none
  errmsg : Option String := none
deriving DecidableEq

structure Reply where
  result : Option CmdResult
deriving DecidableEq

/-- Errors flowing through the auth code: a `MongoError` with a message, a
reply `result` object used as the error, or an opaque transport error. -/
inductive MError
  | mongo (msg : String)
  | resultErr (res : CmdResult)
  | transport (code : Nat)
deriving DecidableEq

/-- What the transport delivers to a command callback: `(err, r)`. -/
structure SResp where
  err : Option MError := none
  r : Option Reply := none
deriving DecidableEq

/-- The commands `_executeScram` builds; payloads are the ASCII text wrapped
into the BSON Binary. -/
inductive Command
  | saslStart (ns mechanism payload : String) (autoAuthorize : Nat)
  | saslContinue (ns : String) (conversationId : JsLite) (payload : String)
deriving DecidableEq

/-- Second argument of the final callback: `null`, `false`, or the reply. -/
inductive CbVal
  | null
  | bool (b : Bool)
  | reply (r : Option Reply)
deriving DecidableEq

/-- How a single-connection attempt ends: a synchronously thrown error
(`passwordDigest`), or the callback invoked with `(err, v)`. -/
inductive ExecOutcome
  | threw (e : MError)
  | called (err : Option MError) (v : CbVal)
deriving DecidableEq

/-- The external crypto primitives the mechanism consumes, plus the optional
module-level `saslprep` library. -/
structure CryptoPrims where
  pbkdf2 : Pbkdf2Fn
  hmac : CryptoMethod → Bytes → String → Bytes
  hash : CryptoMethod → Bytes → Bytes
  md5hex : String → String
  saslprepLib : Option (String → String)

/-- `passwordDigest(username, password)`: validates that both are strings and
the password non-empty, then returns the hex MD5 of `username:mongo:password`.
The `MD5`/hex step is the opaque `md5hex` parameter. -/
def passwordDigest (md5hex : String → String) (username password : JsLite) :
    Except MError String :=
  match username with
  | .str u =>
    match password with
    | .str p =>
      if p.length = 0 then Except.error (MError.mongo "password cannot be empty")
      else Except.ok (md5hex (u ++ ":mongo:" ++ p))
    | _ => Except.error (MError.mongo "password must be a string")
  | _ => Except.error (MError.mongo "username must be a string")

def mechanismName : CryptoMethod → String
  | .sha256 => "SCRAM-SHA-256"
  | .sha1 => "SCRAM-SHA-1"

/-- The password-material step of `_executeScram`: saslprep (or the raw
password, with only a console warning) for SHA-256, `passwordDigest` for
SHA-1.  `serverSaslprep` models `server.s && server.s.saslprep`. -/
def processPassword (P : CryptoPrims) (serverSaslprep : Option (String → String))
    (cryptoMethod : CryptoMethod) (username password : String) : Except MError String :=
  match cryptoMethod with
  | .sha256 =>
    match serverSaslprep with
    | some f => Except.ok (f password)
    | none =>
      match P.saslprepLib with
      | some f => Except.ok (f password)
      | none => Except.ok password
  | .sha1 => passwordDigest P.md5hex (JsLite.str username) (JsLite.str password)

/-- The credential as the coordinator sees it. -/
structure Credential where
  username : String
  password : String
  source : String
  mechanism : String
deriving DecidableEq

/-- `_executeScram(server, connection, credentials, nonce, callback)`, turned
into a function of the three transport responses.  The returned triple is the
final callback invocation (or thrown error), the list of commands written to
the connection, and the updated `_hiCache` state.  A `none` result marks a
run where the JavaScript dereferences `undefined` and throws a `TypeError`
(e.g. `_getError` reading `r.result` of a missing reply). -/
def executeScram (P : CryptoPrims) (serverSaslprep : Option (String → String))
    (cryptoMethod : CryptoMethod) (credentials : Credential) (nonce : String)
    (resp1 resp2 resp3 : SResp) (st : HIState) :
    Option (ExecOutcome × List Command × HIState) :=
  match processPassword P serverSaslprep cryptoMethod credentials.username credentials.password with
  | Except.error e => some (ExecOutcome.threw e, [], st)
  | Except.ok processedPassword =>
    let username := escapeUsername credentials.username
    let firstBare := "n=" ++ username ++ ",r=" ++ nonce
    let ns := credentials.source ++ ".$cmd"
    let cmd1 := Command.saslStart ns (mechanismName cryptoMethod) ("n,," ++ firstBare) 1
    match resp1.err with
    | some e => some (ExecOutcome.called (some e) CbVal.null, [cmd1], st)
    | none =>
      match resp1.r with
      | none => none
      | some r1 =>
        match r1.result with
        | none => none
        | some res1 =>
          if jsTruthyS res1.dollarErr || jsTruthyS res1.errmsg then
            some (ExecOutcome.called (some (MError.resultErr res1)) CbVal.null, [cmd1], st)
          else
            match res1.payload with
            | none => none
            | some payloadStr =>
              let dict := parsePayload payloadStr
              let iterations := jsParseInt (dictGet dict "i")
              let rnonce := dictGet dict "r"
              let withoutProof := "c=biws,r=" ++ jsUndefStr rnonce
              match dictGet dict "s" with
              | none => none
              | some saltStr =>
                let hiOut := HI P.pbkdf2 processedPassword (base64Decode saltStr)
                  iterations cryptoMethod st
                if truthyNum iterations && decide (iterations.getD 0 < 4096) then
                  some (ExecOutcome.called
                    (some (MError.mongo
                      ("Server returned an invalid iteration count " ++ jsNumRepr iterations)))
                    (CbVal.bool false), [cmd1], hiOut.2)
                else
                  let clientKey := P.hmac cryptoMethod hiOut.1 "Client Key"
                  let storedKey := P.hash cryptoMethod clientKey
                  let authMessage := firstBare ++ "," ++ payloadStr ++ "," ++ withoutProof
                  let clientSignature := P.hmac cryptoMethod storedKey authMessage
                  let clientProof := "p=" ++ jsXor (BufOrStr.buf clientKey) (BufOrStr.buf clientSignature)
                  let clientFinal := withoutProof ++ "," ++ clientProof
                  let cmd2 := Command.saslContinue ns res1.conversationId clientFinal
                  match resp2.r with
                  | none => some (ExecOutcome.called resp2.err (CbVal.reply none), [cmd1, cmd2], hiOut.2)
                  | some r2 =>
                    match r2.result with
                    | none => none
                    | some res2 =>
                      if res2.done != JsLite.bool false then
                        some (ExecOutcome.called resp2.err (CbVal.reply (some r2)), [cmd1, cmd2], hiOut.2)
                      else
                        let cmd3 := Command.saslContinue ns res2.conversationId ""
                        some (ExecOutcome.called resp3.err (CbVal.reply resp3.r),
                          [cmd1, cmd2, cmd3], hiOut.2)

/-- Modelled from the spec: `MongoCredentials.equals` (the file
`mongo_credentials.js` is required by `auth_provider.js` but is not part of
the sources); per the data model, two credentials are equal iff username,
source, and mechanism match. -/
def credEquals (a b : Credential) : Bool :=
  a.username == b.username && a.source == b.source && a.mechanism == b.mechanism

/-- `addCredentials`: append only if no stored credential equals the new one. -/
def addCredentials (store : List Credential) (credentials : Credential) : List Credential :=
  if store.any (fun cred => credEquals cred credentials) then store
  else store ++ [credentials]

/-- `logout(source)`: keep only credentials whose source differs. -/
def logout (store : List Credential) (source : String) : List Credential :=
  store.filter (fun credentials => credentials.source != source)

/-- What one `_authenticateSingleConnection` callback delivers to `_auth`:
`(err, r)`. -/
structure Outcome where
  err : Option MError
  r : Option Reply
deriving DecidableEq

/-- How `_auth`'s per-connection callback body classifies one outcome:
`some (some e)` records `e` into `errorObject`, `some none` counts the
connection valid, `none` is the `TypeError` of reading `r.result` when both
`err` and `r` are null. -/
def outcomeClass (o : Outcome) : Option (Option MError) :=
  match o.err with
  | some e => some (some e)
  | none =>
    match o.r with
    | none => none
    | some rr =>
      match rr.result with
      | none => some none
      | some res =>
        if jsTruthyS res.dollarErr then some (some (MError.resultErr res))
        else if jsTruthyS res.errmsg then some (some (MError.resultErr res))
        else some none

/-- The running `errorObject` / `numberOfValidConnections` pair of `_auth`. -/
structure AggSt where
  errorObject : Option MError
  numberOfValidConnections : Nat
deriving DecidableEq

def authAggStep (acc : Option AggSt) (o : Outcome) : Option AggSt :=
  match acc with
  | none => none
  | some st =>
    match outcomeClass o with
    | none => none
    | some (some e) => some (AggSt.mk (some e) st.numberOfValidConnections)
    | some none => some (AggSt.mk st.errorObject (st.numberOfValidConnections + 1))

/-- Folding `_auth`'s per-connection callback over the outcomes in the order
they complete. -/
def authAgg (outcomes : List Outcome) : Option AggSt :=
  outcomes.foldl authAggStep (some (AggSt.mk none 0))

/-- The `count === 0` branch of `_auth`'s callback: success iff at least one
valid connection, storing the credential; otherwise the recorded error or
the synthesized generic one. -/
def authFinish (credentials : Credential) (store : List Credential) (agg : AggSt) :
    (Option MError × Option Bool) × List Credential :=
  if 0 < agg.numberOfValidConnections then
    ((none, some true), addCredentials store credentials)
  else
    match agg.errorObject with
    | some e => ((some e, some false), store)
    | none =>
      ((some (MError.mongo ("failed to authenticate using " ++ credentials.mechanism)),
        some false), store)

abbrev Conn := Nat

/-- The dispatch loop `while (connections.length > 0) executeInNextTick(connections.shift())`:
returns the connections dispatched, in order, and the state of the caller's
array when the loop ends. -/
def dispatchShiftLoop : List Conn → List Conn × List Conn
  | [] => ([], [])
  | c :: rest =>
    let p := dispatchShiftLoop rest
    (c :: p.1, p.2)

/-- The joined result of one `_auth` whose dispatched attempts completed with
`outcomes` (in completion order): the callback's `(err, success)` and the
mutated credential store.  `none` when a callback crashes or when the number
of outcomes does not match the dispatched count (the join barrier `count`
would not reach zero exactly at the end). -/
def authModelCore (credentials : Credential) (dispatched : List Conn)
    (outcomes : List Outcome) (store : List Credential) :
    Option ((Option MError × Option Bool) × List Credential) :=
  if outcomes.length ≠ dispatched.length then none
  else
    match authAgg outcomes with
    | none => none
    | some agg => some (authFinish credentials store agg)

/-- `AuthProvider._auth(writeCommand, connections, credentials, callback)`:
empty connection list short-circuits with `(null, null)`; otherwise every
connection is shifted out of the caller's array and dispatched, and the
outcomes are aggregated.  Returns the callback pair, the state of the
caller's `connections` array afterwards, and the updated store. -/
def authModel (credentials : Credential) (connections : List Conn)
    (outcomes : List Outcome) (store : List Credential) :
    Option ((Option MError × Option Bool) × List Conn × List Credential) :=
  if connections.length = 0 then some ((none, none), connections, store)
  else
    let d := dispatchShiftLoop connections
    match authModelCore credentials d.1 outcomes store with
    | none => none
    | some (res, store') => some (res, d.2, store')

/-- One `_auth` call made by `reauthenticate`: the credential, how many
connections its dispatch loop actually removed from the shared array, and
the error its callback eventually delivered. -/
structure AuthCall where
  cred : Credential
  dispatched : Nat
  err : Option MError
deriving DecidableEq

/-- The `for` loop of `reauthenticate`, threading the *shared* `connections`
array and the credential store through the successive `_auth` calls.
`outcomes i` lists, in completion order, the per-connection results of the
attempts dispatched by the i-th credential's `_auth`. -/
def reauthCalls (outcomes : Nat → List Outcome) :
    Nat → List Credential → List Conn → List Credential →
    Option (List AuthCall × List Conn × List Credential)
  | _, [], conns, store => some ([], conns, store)
  | i, c :: rest, conns, store =>
    if conns.length = 0 then
      match reauthCalls outcomes (i + 1) rest conns store with
      | none => none
      | some (l, cf, sf) => some (AuthCall.mk c 0 none :: l, cf, sf)
    else
      let d := dispatchShiftLoop conns
      match authModelCore c d.1 (outcomes i) store with
      | none => none
      | some (res, store') =>
        match reauthCalls outcomes (i + 1) rest d.2 store' with
        | none => none
        | some (l, cf, sf) => some (AuthCall.mk c d.1.length res.1 :: l, cf, sf)

/-- The error `reauthenticate`'s countdown callback reports: the error of the
chronologically last `_auth` completion.  Calls that dispatched no
connection complete synchronously during the loop; calls that dispatched
connections complete afterwards (their work is deferred by
`process.nextTick` and the transport), so the last of those finishes last. -/
def reauthReport (calls : List AuthCall) : Option MError :=
  match (calls.filter (fun t => t.dispatched != 0)).getLast? with
  | some t => t.err
  | none =>
    match calls.getLast? with
    | some t => t.err
    | none => none

/-- `AuthProvider.reauthenticate(writeCommand, connections, callback)`:
snapshot the store, call `_auth` once per stored credential, and report
`(err, null)` when the countdown reaches zero.  Returns the call log, the
reported pair, the final state of the caller's `connections` array, and the
final store. -/
def reauthModel (store0 : List Credential) (connections : List Conn)
    (outcomes : Nat → List Outcome) :
    Option (List AuthCall × (Option MError × Option Bool) × List Conn × List Credential) :=
  if store0.length = 0 then some ([], (none, none), connections, store0)
  else
    match reauthCalls outcomes 0 store0 connections store0 with
    | none => none
    | some (calls, cf, sf) => some (calls, (reauthReport calls, none), cf, sf)

/-- The per-connection validity notion of claim C3, amended to the source's
truthiness test: the attempt's error is absent and the reply's result has
neither a truthy `$err` nor a truthy `errmsg`. -/
def validConn (o : Outcome) : Bool :=
  o.err.isNone &&
    (match o.r with
     | none => true
     | some rr =>
       match rr.result with
       | none => true
       | some res => !(jsTruthyS res.dollarErr) && !(jsTruthyS res.errmsg))

/-- The error an outcome writes into `errorObject` (none for valid outcomes
and for crashing ones). -/
def errOfOutcome (o : Outcome) : Option MError :=
  match outcomeClass o with
  | some (some e) => some e
  | _ => none

/-- Dummy concrete crypto primitives for evaluating the model on closed
inputs; the claims under test do not depend on the real primitives. -/
def testPrims : CryptoPrims :=
  CryptoPrims.mk (fun _ _ _ _ _ => [1]) (fun _ _ _ => [2]) (fun _ _ => [3])
    (fun s => s) none

def testCredA : Credential := Credential.mk "alice" "pwA" "admin" "SCRAM-SHA-1"

def testCredB : Credential := Credential.mk "bob" "pwB" "admin" "SCRAM-SHA-1"

lemma xorBytes_length (a b : Bytes) : (xorBytes a b).length = max a.length b.length := by
  simp [xorBytes]

lemma xorBytes_getElem? (a b : Bytes) (i : Nat) (h : i < max a.length b.length) :
    (xorBytes a b)[i]? = some (Nat.xor (jsIdx a i) (jsIdx b i)) := by
  unfold xorBytes
  rw [List.getElem?_map, List.getElem?_range h]
  rfl

lemma jsIdx_xorBytes (a b : Bytes) (i : Nat) (h : i < max a.length b.length) :
    jsIdx (xorBytes a b) i = Nat.xor (jsIdx a i) (jsIdx b i) := by
  unfold jsIdx
  rw [xorBytes_getElem? a b i h]
  rfl

/-- Claim C4 counterexample: for the equal-length byte buffers `a = b = [0]`,
the source `xor` returns the base64 *string* `"AA=="`; feeding that back in
as the first argument makes `Buffer.from` decode it as UTF-8 text, so
`xor(xor(a,b),b)` is `"QUE9PQ=="` — not `a` under any reading (neither as
the base64 encoding of `a`, nor byte-wise, nor after base64-decoding). -/
theorem c4_xor_counterexample :
    jsXor (BufOrStr.buf [0]) (BufOrStr.buf [0]) = "AA==" ∧
    jsXor (BufOrStr.str (jsXor (BufOrStr.buf [0]) (BufOrStr.buf [0]))) (BufOrStr.buf [0])
      = "QUE9PQ==" ∧
    jsXor (BufOrStr.str (jsXor (BufOrStr.buf [0]) (BufOrStr.buf [0]))) (BufOrStr.buf [0])
      ≠ base64Encode [0] ∧
    xorBytes (strBytes (jsXor (BufOrStr.buf [0]) (BufOrStr.buf [0]))) [0] ≠ [0] ∧
    base64Decode
        (jsXor (BufOrStr.str (jsXor (BufOrStr.buf [0]) (BufOrStr.buf [0]))) (BufOrStr.buf [0]))
      ≠ [0] := by
  refine ⟨rfl, rfl, ?_, ?_, ?_⟩ <;> decide

/-- Claim C4 (amended): the byte-wise xor core of the helper — everything
before the final base64 encoding — is involutive on equal-length buffers:
`xorBytes (xorBytes a b) b = a`.  The helper itself returns that byte string
base64-encoded, so the involution as originally stated fails (see the
counterexample). -/
theorem c4_xor_core_involutive (a b : Bytes) (h : a.length = b.length) :
    xorBytes (xorBytes a b) b = a := by
  apply List.ext_getElem?
  intro i
  by_cases hi : i < a.length
  · have h1 : (xorBytes a b).length = a.length := by
      rw [xorBytes_length, h, Nat.max_self]
    have h2 : i < max (xorBytes a b).length b.length := by omega
    have h3 : i < max a.length b.length := by omega
    rw [xorBytes_getElem? (xorBytes a b) b i h2]
    rw [jsIdx_xorBytes a b i h3]
    rw [List.getElem?_eq_getElem hi]
    have hji : jsIdx a i = a[i] := by
      unfold jsIdx
      rw [List.getElem?_eq_getElem hi]
      rfl
    rw [← hji]
    exact congrArg some (Nat.xor_cancel_right (jsIdx b i) (jsIdx a i))
  · have h1 : (xorBytes (xorBytes a b) b).length = a.length := by
      rw [xorBytes_length, xorBytes_length, h, Nat.max_self, Nat.max_self]
    rw [List.getElem?_eq_none_iff.mpr (by omega), List.getElem?_eq_none_iff.mpr (by omega)]

/-- Witness for the amended C4 at a concrete equal-length pair. -/
theorem c4_xor_core_involutive_witness :
    ([1, 2] : Bytes).length = ([3, 255] : Bytes).length ∧
      xorBytes (xorBytes [1, 2] [3, 255]) [3, 255] = [1, 2] :=
  ⟨by decide, c4_xor_core_involutive [1, 2] [3, 255] (by decide)⟩

lemma jsReplaceFirstAux_single (p : Char) (rep : List Char) (c : Char) (rest : List Char) :
    jsReplaceFirstAux [p] rep (c :: rest) =
      if c = p then rep ++ rest else c :: jsReplaceFirstAux [p] rep rest := by
  by_cases hc : c = p
  · subst hc
    simp [jsReplaceFirstAux, List.isPrefixOf]
  · have hpc : (p == c) = false := beq_eq_false_iff_ne.mpr (Ne.symm hc)
    simp [jsReplaceFirstAux, List.isPrefixOf, hpc, hc]

lemma specEscapeChars_id (cs : List Char) (h : ∀ c ∈ cs, c ≠ '=' ∧ c ≠ ',') :
    specEscapeChars cs = cs := by
  induction cs with
  | nil => rfl
  | cons c rest ih =>
    have hc := h c (by simp)
    simp only [specEscapeChars, specEscapeChar, if_neg hc.1, if_neg hc.2]
    rw [ih (fun d hd => h d (by simp [hd]))]
    rfl

lemma replaceComma_eq_spec (cs : List Char) (hne : '=' ∉ cs) (hc : cs.count ',' ≤ 1) :
    jsReplaceFirstAux [','] "=2C".data cs = specEscapeChars cs := by
  induction cs with
  | nil => rfl
  | cons c rest ih =>
    rw [jsReplaceFirstAux_single]
    by_cases hcm : c = ','
    · subst hcm
      have hrest0 : rest.count ',' = 0 := by
        rw [List.count_cons_self] at hc
        omega
      have hrest : specEscapeChars rest = rest := by
        apply specEscapeChars_id
        intro d hd
        constructor
        · intro hdeq
          exact hne (by simp [hdeq ▸ hd])
        · intro hdeq
          exact (List.count_eq_zero.mp hrest0) (hdeq ▸ hd)
      simp [specEscapeChars, specEscapeChar, hrest]
    · have hcne : c ≠ '=' := fun hh => hne (by simp [hh])
      rw [if_neg hcm]
      have hrc : rest.count ',' ≤ 1 := by
        rw [List.count_cons_of_ne (fun hh => hcm hh.symm)] at hc
        exact hc
      rw [ih (fun hh => hne (by simp [hh])) hrc]
      simp [specEscapeChars, specEscapeChar, hcne, hcm]

lemma replaceEq_eq_spec (cs : List Char) (hne : ',' ∉ cs) (hc : cs.count '=' ≤ 1) :
    jsReplaceFirstAux ['='] "=3D".data cs = specEscapeChars cs := by
  induction cs with
  | nil => rfl
  | cons c rest ih =>
    rw [jsReplaceFirstAux_single]
    by_cases hcm : c = '='
    · subst hcm
      have hrest0 : rest.count '=' = 0 := by
        rw [List.count_cons_self] at hc
        omega
      have hrest : specEscapeChars rest = rest := by
        apply specEscapeChars_id
        intro d hd
        constructor
        · intro hdeq
          exact (List.count_eq_zero.mp hrest0) (hdeq ▸ hd)
        · intro hdeq
          exact hne (by simp [hdeq ▸ hd])
      simp [specEscapeChars, specEscapeChar, hrest]
    · have hcne : c ≠ ',' := fun hh => hne (by simp [hh])
      rw [if_neg hcm]
      have hrc : rest.count '=' ≤ 1 := by
        rw [List.count_cons_of_ne (fun hh => hcm hh.symm)] at hc
        exact hc
      rw [ih (fun hh => hne (by simp [hh])) hrc]
      simp [specEscapeChars, specEscapeChar, hcne, hcm]

lemma replace_both_eq_spec (cs : List Char) (h1 : cs.count '=' ≤ 1) (h2 : cs.count ',' ≤ 1) :
    jsReplaceFirstAux [','] "=2C".data (jsReplaceFirstAux ['='] "=3D".data cs)
      = specEscapeChars cs := by
  induction cs with
  | nil => rfl
  | cons c rest ih =>
    rw [jsReplaceFirstAux_single ('=') ("=3D".data) c rest]
    by_cases he : c = '='
    · subst he
      have hrest0 : rest.count '=' = 0 := by
        rw [List.count_cons_self] at h1
        omega
      have hne : '=' ∉ rest := List.count_eq_zero.mp hrest0
      have hrc : rest.count ',' ≤ 1 := by
        rw [List.count_cons_of_ne (by decide : (',' : Char) ≠ '=')] at h2
        exact h2
      rw [if_pos rfl]
      show jsReplaceFirstAux [','] "=2C".data ('=' :: '3' :: 'D' :: rest) = _
      rw [jsReplaceFirstAux_single, if_neg (by decide : ¬('=' = ','))]
      rw [jsReplaceFirstAux_single, if_neg (by decide : ¬('3' = ','))]
      rw [jsReplaceFirstAux_single, if_neg (by decide : ¬('D' = ','))]
      rw [replaceComma_eq_spec rest hne hrc]
      simp [specEscapeChars, specEscapeChar]
    · rw [if_neg he]
      by_cases hcm : c = ','
      · subst hcm
        have hrest0 : rest.count ',' = 0 := by
          rw [List.count_cons_self] at h2
          omega
        have hne : ',' ∉ rest := List.count_eq_zero.mp hrest0
        have hrc : rest.count '=' ≤ 1 := by
          rw [List.count_cons_of_ne (by decide : ('=' : Char) ≠ ',')] at h1
          exact h1
        rw [jsReplaceFirstAux_single, if_pos rfl]
        rw [replaceEq_eq_spec rest hne hrc]
        simp [specEscapeChars, specEscapeChar]
      · have hrc1 : rest.count '=' ≤ 1 := by
          rw [List.count_cons_of_ne (fun hh => he hh.symm)] at h1
          exact h1
        have hrc2 : rest.count ',' ≤ 1 := by
          rw [List.count_cons_of_ne (fun hh => hcm hh.symm)] at h2
          exact h2
        rw [jsReplaceFirstAux_single, if_neg hcm]
        rw [ih hrc1 hrc2]
        simp [specEscapeChars, specEscapeChar, he, hcm]

/-- Claim C2 counterexample: for the username `"=="` the source escaping
(`String.prototype.replace` with a string pattern replaces only the *first*
occurrence) produces `"=3D="`, while replacing every occurrence would
produce `"=3D=3D"`. -/
theorem c2_escape_counterexample :
    escapeUsername "==" = "=3D=" ∧
    specEscapeAll "==" = "=3D=3D" ∧
    escapeUsername "==" ≠ specEscapeAll "==" := by
  refine ⟨rfl, rfl, ?_⟩
  decide

/-- Claim C2 (amended): the escaping applied before building the first
client message replaces only the *first* occurrence of `=` by `=3D` and then
only the first occurrence of `,` by `=2C` (the `=` substitution still comes
first, so the `=` introduced by it is never re-escaped); consequently it
agrees with the spec's escape-every-occurrence exactly on usernames with at
most one `=` and at most one `,`. -/
theorem c2_escape_first_only (u : String)
    (h1 : u.data.count '=' ≤ 1) (h2 : u.data.count ',' ≤ 1) :
    escapeUsername u = specEscapeAll u := by
  show String.mk (jsReplaceFirstAux [','] "=2C".data (jsReplaceFirstAux ['='] "=3D".data u.data))
      = String.mk (specEscapeChars u.data)
  rw [replace_both_eq_spec u.data h1 h2]

/-- Witness for the amended C2 at `"a=b,c"`. -/
theorem c2_escape_first_only_witness :
    ("a=b,c".data.count '=' ≤ 1 ∧ "a=b,c".data.count ',' ≤ 1) ∧
      escapeUsername "a=b,c" = specEscapeAll "a=b,c" :=
  ⟨⟨by decide, by decide⟩, c2_escape_first_only "a=b,c" (by decide) (by decide)⟩

/-- Claim C8 counterexample: the code never rejects an *empty* username —
for username `""` (which is not a non-empty string) and password `"x"` the
digest succeeds instead of failing with a validation error. -/
theorem c8_password_digest_counterexample :
    (passwordDigest (fun s => s) (JsLite.str "") (JsLite.str "x")).isOk = true ∧
    passwordDigest (fun s => s) (JsLite.str "") (JsLite.str "x") = Except.ok ":mongo:x" := by
  exact ⟨rfl, rfl⟩

/-- Claim C8 (amended): `passwordDigest` returns the hex MD5 of
`username + ":mongo:" + password` for any *string* username — including the
empty string — and non-empty string password; it fails with a validation
`MongoError` precisely when the username is not a string, the password is
not a string, or the password is empty.  The validation happens before any
network activity: in the SHA-1 flow a validation failure aborts the attempt
with no command written to the connection. -/
theorem c8_password_digest (md5hex : String → String) (u p : String) (v w : JsLite) :
    (p ≠ "" → passwordDigest md5hex (JsLite.str u) (JsLite.str p)
        = Except.ok (md5hex (u ++ ":mongo:" ++ p))) ∧
    (passwordDigest md5hex (JsLite.str u) (JsLite.str "")
        = Except.error (MError.mongo "password cannot be empty")) ∧
    ((∀ s, v ≠ JsLite.str s) → passwordDigest md5hex v w
        = Except.error (MError.mongo "username must be a string")) ∧
    ((∀ s, w ≠ JsLite.str s) → passwordDigest md5hex (JsLite.str u) w
        = Except.error (MError.mongo "password must be a string")) ∧
    (∀ (P : CryptoPrims) (sprep : Option (String → String)) (cred : Credential)
        (nonce : String) (r1 r2 r3 : SResp) (st : HIState) (e : MError),
      passwordDigest P.md5hex (JsLite.str cred.username) (JsLite.str cred.password)
          = Except.error e →
      executeScram P sprep CryptoMethod.sha1 cred nonce r1 r2 r3 st
        = some (ExecOutcome.threw e, [], st)) := by
  refine ⟨?_, ?_, ?_, ?_, ?_⟩
  · intro hp
    have hlen : ¬(p.length = 0) := fun hh => hp (by
      cases p with
      | mk l => cases l with
        | nil => rfl
        | cons a as => simp [String.length] at hh)
    simp [passwordDigest, hlen]
  · rfl
  · intro hv
    cases v with
    | undef => rfl
    | bool b => rfl
    | num n => rfl
    | str s => exact absurd rfl (hv s)
  · intro hw
    cases w with
    | undef => rfl
    | bool b => rfl
    | num n => rfl
    | str s => exact absurd rfl (hw s)
  · intro P sprep cred nonce r1 r2 r3 st e herr
    simp [executeScram, processPassword, herr]

/-- Witness for the amended C8, discharging each hypothesis at concrete
inputs. -/
theorem c8_password_digest_witness :
    (passwordDigest (fun s => s) (JsLite.str "user") (JsLite.str "pencil")
        = Except.ok "user:mongo:pencil") ∧
    (passwordDigest (fun s => s) (JsLite.num 3) (JsLite.str "pencil")
        = Except.error (MError.mongo "username must be a string")) ∧
    (passwordDigest (fun s => s) (JsLite.str "user") JsLite.undef
        = Except.error (MError.mongo "password must be a string")) ∧
    (executeScram testPrims none CryptoMethod.sha1
        (Credential.mk "user" "" "admin" "SCRAM-SHA-1") "nonce"
        (SResp.mk none none) (SResp.mk none none) (SResp.mk none none) (HIState.mk [] 0)
      = some (ExecOutcome.threw (MError.mongo "password cannot be empty"), [],
          HIState.mk [] 0)) := by
  refine ⟨?_, ?_, ?_, ?_⟩
  · exact (c8_password_digest (fun s => s) "user" "pencil" JsLite.undef JsLite.undef).1
      (by decide)
  · exact (c8_password_digest (fun s => s) "u" "p" (JsLite.num 3)
      (JsLite.str "pencil")).2.2.1 (fun s hh => JsLite.noConfusion hh)
  · exact (c8_password_digest (fun s => s) "user" "p" JsLite.undef
      JsLite.undef).2.2.2.1 (fun s hh => JsLite.noConfusion hh)
  · exact (c8_password_digest testPrims.md5hex "u" "p" JsLite.undef
      JsLite.undef).2.2.2.2 testPrims none (Credential.mk "user" "" "admin" "SCRAM-SHA-1")
      "nonce" (SResp.mk none none) (SResp.mk none none) (SResp.mk none none)
      (HIState.mk [] 0) (MError.mongo "password cannot be empty") rfl

lemma cacheLookup_cons_self (k : String) (v : Bytes) (c : List (String × Bytes)) :
    cacheLookup ((k, v) :: c) k = some v := by
  simp [cacheLookup, List.find?]

lemma cacheLookup_cons_ne (k k' : String) (v : Bytes) (c : List (String × Bytes))
    (h : k' ≠ k) : cacheLookup ((k, v) :: c) k' = cacheLookup c k' := by
  have : (k == k') = false := beq_eq_false_iff_ne.mpr (Ne.symm h)
  simp [cacheLookup, List.find?, this]

/-- Claim C6: `HI` memoizes on the exact `(material, base64-salt,
iterations)` triple.  (1) A call on an already-cached key returns the cached
bytes unchanged, leaves the state untouched, and skips the derivation (the
result does not depend on the pbkdf2 function).  (2) Immediately repeating
any call hits the cache: it returns the same bytes, does not change the
state, and is independent of the pbkdf2 function used for the repeat.
(3) The invariant "insertion counter = number of entries ≤ 200" is
preserved, so the cache never holds more than 200 entries.  (4) The
insertion that would exceed the bound first clears the whole map and
counter, so every previously cached key misses afterwards. -/
theorem c6_hi_cache (f g : Pbkdf2Fn) (data : String) (salt : Bytes) (its : Option Int)
    (m : CryptoMethod) (st : HIState) (v : Bytes) :
    (cacheLookup st.cache (hiKey data salt its) = some v →
       HI f data salt its m st = (v, st) ∧
         HI f data salt its m st = HI g data salt its m st) ∧
    (HI g data salt its m (HI f data salt its m st).2
       = ((HI f data salt its m st).1, (HI f data salt its m st).2)) ∧
    (st.count = st.cache.length → st.cache.length ≤ 200 →
       (HI f data salt its m st).2.count = (HI f data salt its m st).2.cache.length ∧
         (HI f data salt its m st).2.cache.length ≤ 200) ∧
    (200 ≤ st.count → cacheLookup st.cache (hiKey data salt its) = none →
       (HI f data salt its m st).2.cache
           = [(hiKey data salt its, f data salt its (hiLengthMap m) m)] ∧
         ∀ k, k ≠ hiKey data salt its →
           cacheLookup (HI f data salt its m st).2.cache k = none) := by
  refine ⟨?_, ?_, ?_, ?_⟩
  · intro hl
    constructor
    · simp [HI, hl]
    · simp [HI, hl]
  · cases hl : cacheLookup st.cache (hiKey data salt its) with
    | some w =>
      simp [HI, hl]
    | none =>
      have hhead : cacheLookup
          ((hiKey data salt its,
            f data salt its (hiLengthMap m) m) ::
              (if 200 ≤ st.count then HIState.mk [] 0 else st).cache)
          (hiKey data salt its)
          = some (f data salt its (hiLengthMap m) m) := cacheLookup_cons_self _ _ _
      simp [HI, hl, hhead]
  · intro hcnt hle
    cases hl : cacheLookup st.cache (hiKey data salt its) with
    | some w =>
      simp [HI, hl, hcnt, hle]
    | none =>
      by_cases hb : 200 ≤ st.count
      · simp [HI, hl, if_pos hb]
      · have hb2 : ¬ 200 ≤ st.cache.length := by omega
        simp [HI, hl, hcnt, hb2]
        omega
  · intro hb hl
    have hcache : (HI f data salt its m st).2.cache
        = [(hiKey data salt its, f data salt its (hiLengthMap m) m)] := by
      simp [HI, hl, if_pos hb]
    refine ⟨hcache, ?_⟩
    intro k hk
    rw [hcache, cacheLookup_cons_ne _ _ _ _ hk]
    simp [cacheLookup]

/-- Witness for C6, discharging each hypothesis at concrete inputs: a hit on
a pre-seeded cache, a repeated call, the size invariant from the empty
state, and the purging insertion from a full cache. -/
theorem c6_hi_cache_witness :
    (HI (fun _ _ _ _ _ => [1]) "d" [0] (some 1) CryptoMethod.sha1
        (HIState.mk [(hiKey "d" [0] (some 1), [7])] 1)
      = ([7], HIState.mk [(hiKey "d" [0] (some 1), [7])] 1)) ∧
    (HI (fun _ _ _ _ _ => [2]) "d" [0] (some 1) CryptoMethod.sha1
        (HI (fun _ _ _ _ _ => [1]) "d" [0] (some 1) CryptoMethod.sha1 (HIState.mk [] 0)).2
      = ((HI (fun _ _ _ _ _ => [1]) "d" [0] (some 1) CryptoMethod.sha1 (HIState.mk [] 0)).1,
         (HI (fun _ _ _ _ _ => [1]) "d" [0] (some 1) CryptoMethod.sha1 (HIState.mk [] 0)).2)) ∧
    ((HI (fun _ _ _ _ _ => [1]) "d" [0] (some 1) CryptoMethod.sha1
        (HIState.mk [] 0)).2.cache.length ≤ 200) ∧
    (cacheLookup (HI (fun _ _ _ _ _ => [3]) "d" [0] (some 1) CryptoMethod.sha1
        (HIState.mk [("k0", [9])] 200)).2.cache "k0" = none) := by
  refine ⟨?_, ?_, ?_, ?_⟩
  · exact ((c6_hi_cache (fun _ _ _ _ _ => [1]) (fun _ _ _ _ _ => [1]) "d" [0] (some 1)
      CryptoMethod.sha1 (HIState.mk [(hiKey "d" [0] (some 1), [7])] 1) [7]).1 (by rfl)).1
  · exact (c6_hi_cache (fun _ _ _ _ _ => [1]) (fun _ _ _ _ _ => [2]) "d" [0] (some 1)
      CryptoMethod.sha1 (HIState.mk [] 0) []).2.1
  · exact ((c6_hi_cache (fun _ _ _ _ _ => [1]) (fun _ _ _ _ _ => [1]) "d" [0] (some 1)
      CryptoMethod.sha1 (HIState.mk [] 0) []).2.2.1 rfl (by decide)).2
  · exact ((c6_hi_cache (fun _ _ _ _ _ => [3]) (fun _ _ _ _ _ => [3]) "d" [0] (some 1)
      CryptoMethod.sha1 (HIState.mk [("k0", [9])] 200) []).2.2.2 (by decide)
      (by decide)).2 "k0" (by decide)

lemma executeScram_invalid_iteration
    (P : CryptoPrims) (sprep : Option (String → String)) (m : CryptoMethod)
    (cred : Credential) (nonce pp p saltStr : String) (cid1 d1 : JsLite)
    (de em : Option String) (i : Int) (resp2 resp3 : SResp) (st : HIState)
    (hpp : processPassword P sprep m cred.username cred.password = Except.ok pp)
    (hde : jsTruthyS de = false) (hem : jsTruthyS em = false)
    (hs : dictGet (parsePayload p) "s" = some saltStr)
    (hi : jsParseInt (dictGet (parsePayload p) "i") = some i)
    (hiz : i ≠ 0) (hlt : i < 4096) :
    executeScram P sprep m cred nonce
        (SResp.mk none (some (Reply.mk (some (CmdResult.mk (some p) cid1 d1 de em)))))
        resp2 resp3 st
      = some (ExecOutcome.called
          (some (MError.mongo ("Server returned an invalid iteration count " ++ toString i)))
          (CbVal.bool false),
          [Command.saslStart (cred.source ++ ".$cmd") (mechanismName m)
            ("n,," ++ ("n=" ++ escapeUsername cred.username ++ ",r=" ++ nonce)) 1],
          (HI P.pbkdf2 pp (base64Decode saltStr) (some i) m st).2) := by
  have h1 : (i != 0) = true := by simp [hiz]
  have h2 : (decide (i < 4096)) = true := by simp [hlt]
  simp [executeScram, hpp, hde, hem, hs, hi, truthyNum, h1, h2, jsNumRepr]

/-- Claim C5 counterexample: a first server reply whose parsed iteration
count is present and below 4096 — namely `i=0` — does *not* make the attempt
fail with the invalid-iteration-count error, and a `saslContinue` command
beyond `saslStart` is still sent: the guard `iterations && iterations < 4096`
treats the parsed count `0` as falsy. -/
theorem c5_low_iteration_counterexample :
    jsParseInt (dictGet (parsePayload "r=abc,s=QUJD,i=0") "i") = some 0 ∧
    ((0 : Int) < 4096) ∧
    (executeScram testPrims none CryptoMethod.sha256
        (Credential.mk "user" "pencil" "admin" "SCRAM-SHA-256") "abc"
        (SResp.mk none (some (Reply.mk (some
          (CmdResult.mk (some "r=abc,s=QUJD,i=0") (JsLite.num 7) JsLite.undef none none)))))
        (SResp.mk none (some (Reply.mk (some
          (CmdResult.mk none (JsLite.num 7) (JsLite.bool true) none none)))))
        (SResp.mk none none) (HIState.mk [] 0)).map (fun t => t.2.1.length) = some 2 ∧
    (executeScram testPrims none CryptoMethod.sha256
        (Credential.mk "user" "pencil" "admin" "SCRAM-SHA-256") "abc"
        (SResp.mk none (some (Reply.mk (some
          (CmdResult.mk (some "r=abc,s=QUJD,i=0") (JsLite.num 7) JsLite.undef none none)))))
        (SResp.mk none (some (Reply.mk (some
          (CmdResult.mk none (JsLite.num 7) (JsLite.bool true) none none)))))
        (SResp.mk none none) (HIState.mk [] 0)).map (fun t => t.1)
      = some (ExecOutcome.called none (CbVal.reply (some (Reply.mk (some
          (CmdResult.mk none (JsLite.num 7) (JsLite.bool true) none none)))))) := by
  refine ⟨rfl, by decide, rfl, rfl⟩

/-- Claim C5 (amended): whenever the first server reply's parsed iteration
count is present, *truthy* (non-zero; a parsed `0` is falsy and slips past
the guard, see the counterexample) and below 4096, the attempt fails with
the `MongoError` "Server returned an invalid iteration count", and no
command beyond the single `saslStart` is written to the connection. -/
theorem c5_low_iteration_fails
    (P : CryptoPrims) (sprep : Option (String → String)) (m : CryptoMethod)
    (cred : Credential) (nonce pp p saltStr : String) (cid1 d1 : JsLite)
    (de em : Option String) (i : Int) (resp2 resp3 : SResp) (st : HIState)
    (hpp : processPassword P sprep m cred.username cred.password = Except.ok pp)
    (hde : jsTruthyS de = false) (hem : jsTruthyS em = false)
    (hs : dictGet (parsePayload p) "s" = some saltStr)
    (hi : jsParseInt (dictGet (parsePayload p) "i") = some i)
    (hiz : i ≠ 0) (hlt : i < 4096) :
    executeScram P sprep m cred nonce
        (SResp.mk none (some (Reply.mk (some (CmdResult.mk (some p) cid1 d1 de em)))))
        resp2 resp3 st
      = some (ExecOutcome.called
          (some (MError.mongo ("Server returned an invalid iteration count " ++ toString i)))
          (CbVal.bool false),
          [Command.saslStart (cred.source ++ ".$cmd") (mechanismName m)
            ("n,," ++ ("n=" ++ escapeUsername cred.username ++ ",r=" ++ nonce)) 1],
          (HI P.pbkdf2 pp (base64Decode saltStr) (some i) m st).2) :=
  executeScram_invalid_iteration P sprep m cred nonce pp p saltStr cid1 d1 de em i
    resp2 resp3 st hpp hde hem hs hi hiz hlt

/-- Witness for the amended C5 at `i=5`. -/
theorem c5_low_iteration_fails_witness :
    executeScram testPrims none CryptoMethod.sha256
        (Credential.mk "user" "pencil" "admin" "SCRAM-SHA-256") "abc"
        (SResp.mk none (some (Reply.mk (some
          (CmdResult.mk (some "r=abc,s=QUJD,i=5") (JsLite.num 7) JsLite.undef none none)))))
        (SResp.mk none none) (SResp.mk none none) (HIState.mk [] 0)
      = some (ExecOutcome.called
          (some (MError.mongo ("Server returned an invalid iteration count " ++ toString (5 : Int))))
          (CbVal.bool false),
          [Command.saslStart "admin.$cmd" (mechanismName CryptoMethod.sha256)
            ("n,," ++ ("n=" ++ escapeUsername "user" ++ ",r=" ++ "abc")) 1],
          (HI testPrims.pbkdf2 "pencil" (base64Decode "QUJD") (some 5)
            CryptoMethod.sha256 (HIState.mk [] 0)).2) :=
  c5_low_iteration_fails testPrims none CryptoMethod.sha256
    (Credential.mk "user" "pencil" "admin" "SCRAM-SHA-256") "abc" "pencil"
    "r=abc,s=QUJD,i=5" "QUJD" (JsLite.num 7) JsLite.undef none none 5
    (SResp.mk none none) (SResp.mk none none) (HIState.mk [] 0)
    rfl rfl rfl rfl rfl (by decide) (by decide)

/-- Claim C10: the salted-password derivation `HI` runs — and inserts its
result into the process-wide cache — *before* the iteration-count threshold
is checked; a reply with a truthy iteration count below 4096 therefore still
incurs the full pbkdf2 computation with that count and leaves a new cache
entry under the below-threshold key, even though the attempt then fails with
the invalid-iteration-count error and sends nothing beyond `saslStart`. -/
theorem c10_derivation_cached_before_iteration_check
    (P : CryptoPrims) (sprep : Option (String → String)) (m : CryptoMethod)
    (cred : Credential) (nonce pp p saltStr : String) (cid1 d1 : JsLite)
    (de em : Option String) (i : Int) (resp2 resp3 : SResp) (st : HIState)
    (hpp : processPassword P sprep m cred.username cred.password = Except.ok pp)
    (hde : jsTruthyS de = false) (hem : jsTruthyS em = false)
    (hs : dictGet (parsePayload p) "s" = some saltStr)
    (hi : jsParseInt (dictGet (parsePayload p) "i") = some i)
    (hiz : i ≠ 0) (hlt : i < 4096)
    (hmiss : cacheLookup st.cache (hiKey pp (base64Decode saltStr) (some i)) = none) :
    executeScram P sprep m cred nonce
        (SResp.mk none (some (Reply.mk (some (CmdResult.mk (some p) cid1 d1 de em)))))
        resp2 resp3 st
      = some (ExecOutcome.called
          (some (MError.mongo ("Server returned an invalid iteration count " ++ toString i)))
          (CbVal.bool false),
          [Command.saslStart (cred.source ++ ".$cmd") (mechanismName m)
            ("n,," ++ ("n=" ++ escapeUsername cred.username ++ ",r=" ++ nonce)) 1],
          (HI P.pbkdf2 pp (base64Decode saltStr) (some i) m st).2) ∧
    cacheLookup (HI P.pbkdf2 pp (base64Decode saltStr) (some i) m st).2.cache
        (hiKey pp (base64Decode saltStr) (some i))
      = some (P.pbkdf2 pp (base64Decode saltStr) (some i) (hiLengthMap m) m) := by
  constructor
  · exact executeScram_invalid_iteration P sprep m cred nonce pp p saltStr cid1 d1 de em i
      resp2 resp3 st hpp hde hem hs hi hiz hlt
  · have : (HI P.pbkdf2 pp (base64Decode saltStr) (some i) m st).2.cache
        = (hiKey pp (base64Decode saltStr) (some i),
            P.pbkdf2 pp (base64Decode saltStr) (some i) (hiLengthMap m) m) ::
              (if 200 ≤ st.count then HIState.mk [] 0 else st).cache := by
      simp [HI, hmiss]
    rw [this, cacheLookup_cons_self]

/-- Witness for C10 at `i=5` from the empty cache. -/
theorem c10_derivation_cached_witness :
    (executeScram testPrims none CryptoMethod.sha256
        (Credential.mk "user" "pencil" "admin" "SCRAM-SHA-256") "abc"
        (SResp.mk none (some (Reply.mk (some
          (CmdResult.mk (some "r=abc,s=QUJD,i=5") (JsLite.num 7) JsLite.undef none none)))))
        (SResp.mk none none) (SResp.mk none none) (HIState.mk [] 0)).map
          (fun t => t.2.1.length) = some 1 ∧
    cacheLookup (HI testPrims.pbkdf2 "pencil" (base64Decode "QUJD") (some 5)
        CryptoMethod.sha256 (HIState.mk [] 0)).2.cache
        (hiKey "pencil" (base64Decode "QUJD") (some 5))
      = some (testPrims.pbkdf2 "pencil" (base64Decode "QUJD") (some 5)
          (hiLengthMap CryptoMethod.sha256) CryptoMethod.sha256) := by
  have h := c10_derivation_cached_before_iteration_check testPrims none CryptoMethod.sha256
    (Credential.mk "user" "pencil" "admin" "SCRAM-SHA-256") "abc" "pencil"
    "r=abc,s=QUJD,i=5" "QUJD" (JsLite.num 7) JsLite.undef none none 5
    (SResp.mk none none) (SResp.mk none none) (HIState.mk [] 0)
    rfl rfl rfl rfl rfl (by decide) (by decide) rfl
  refine ⟨?_, h.2⟩
  rw [h.1]
  rfl

/-- Claim C7: after the second-round (`saslContinue`) server reply, one
additional `saslContinue` — with the conversation identifier carried by that
reply (the identifier the server echoes for the conversation) and an empty
payload — is issued if and only if the reply is present and its `done`
indicator is exactly `false`; whenever the reply is absent or `done` is
anything other than exactly `false`, that reply (or its error) is the final
result of the attempt.  `pl1`/`pl2` are the `saslStart`/first `saslContinue`
payloads, `st'` the cache state after the first round. -/
theorem c7_second_round
    (P : CryptoPrims) (sprep : Option (String → String)) (m : CryptoMethod)
    (cred : Credential) (nonce pp p saltStr : String) (cid1 d1 : JsLite)
    (de em : Option String) (resp2 resp3 : SResp) (st : HIState)
    (hpp : processPassword P sprep m cred.username cred.password = Except.ok pp)
    (hde : jsTruthyS de = false) (hem : jsTruthyS em = false)
    (hs : dictGet (parsePayload p) "s" = some saltStr)
    (hguard : (truthyNum (jsParseInt (dictGet (parsePayload p) "i"))
        && decide ((jsParseInt (dictGet (parsePayload p) "i")).getD 0 < 4096)) = false) :
    ∃ pl1 pl2 st',
      (resp2.r = none →
        executeScram P sprep m cred nonce
            (SResp.mk none (some (Reply.mk (some (CmdResult.mk (some p) cid1 d1 de em)))))
            resp2 resp3 st
          = some (ExecOutcome.called resp2.err (CbVal.reply none),
              [Command.saslStart (cred.source ++ ".$cmd") (mechanismName m) pl1 1,
               Command.saslContinue (cred.source ++ ".$cmd") cid1 pl2], st')) ∧
      (∀ r2 res2, resp2.r = some r2 → r2.result = some res2 →
        (res2.done ≠ JsLite.bool false →
          executeScram P sprep m cred nonce
              (SResp.mk none (some (Reply.mk (some (CmdResult.mk (some p) cid1 d1 de em)))))
              resp2 resp3 st
            = some (ExecOutcome.called resp2.err (CbVal.reply (some r2)),
                [Command.saslStart (cred.source ++ ".$cmd") (mechanismName m) pl1 1,
                 Command.saslContinue (cred.source ++ ".$cmd") cid1 pl2], st')) ∧
        (res2.done = JsLite.bool false →
          executeScram P sprep m cred nonce
              (SResp.mk none (some (Reply.mk (some (CmdResult.mk (some p) cid1 d1 de em)))))
              resp2 resp3 st
            = some (ExecOutcome.called resp3.err (CbVal.reply resp3.r),
                [Command.saslStart (cred.source ++ ".$cmd") (mechanismName m) pl1 1,
                 Command.saslContinue (cred.source ++ ".$cmd") cid1 pl2,
                 Command.saslContinue (cred.source ++ ".$cmd") res2.conversationId ""],
                st'))) := by
  refine ⟨"n,," ++ ("n=" ++ escapeUsername cred.username ++ ",r=" ++ nonce),
    "c=biws,r=" ++ jsUndefStr (dictGet (parsePayload p) "r") ++ "," ++
      ("p=" ++ jsXor
        (BufOrStr.buf (P.hmac m (HI P.pbkdf2 pp (base64Decode saltStr)
          (jsParseInt (dictGet (parsePayload p) "i")) m st).1 "Client Key"))
        (BufOrStr.buf (P.hmac m
          (P.hash m (P.hmac m (HI P.pbkdf2 pp (base64Decode saltStr)
            (jsParseInt (dictGet (parsePayload p) "i")) m st).1 "Client Key"))
          ("n=" ++ escapeUsername cred.username ++ ",r=" ++ nonce ++ "," ++ p ++ "," ++
            ("c=biws,r=" ++ jsUndefStr (dictGet (parsePayload p) "r")))))),
    (HI P.pbkdf2 pp (base64Decode saltStr) (jsParseInt (dictGet (parsePayload p) "i")) m st).2,
    ?_, ?_⟩
  · intro h2r
    simp [executeScram, hpp, hde, hem, hs, hguard, h2r]
  · intro r2 res2 h2r hres
    constructor
    · intro hd
      have hbne : (res2.done != JsLite.bool false) = true := bne_iff_ne.mpr hd
      simp [executeScram, hpp, hde, hem, hs, hguard, h2r, hres, hbne]
    · intro hd
      have hbne : (res2.done != JsLite.bool false) = false := by
        simp [hd]
      simp [executeScram, hpp, hde, hem, hs, hguard, h2r, hres, hbne, hd]

/-- Witness for C7: a concrete `done: false` second reply triggers exactly
one extra `saslContinue` (three commands in total) and the third reply is
the final result. -/
theorem c7_second_round_witness :
    (executeScram testPrims none CryptoMethod.sha256
        (Credential.mk "user" "pencil" "admin" "SCRAM-SHA-256") "abc"
        (SResp.mk none (some (Reply.mk (some
          (CmdResult.mk (some "r=abc,s=QUJD,i=4096") (JsLite.num 7) JsLite.undef none none)))))
        (SResp.mk none (some (Reply.mk (some
          (CmdResult.mk none (JsLite.num 9) (JsLite.bool false) none none)))))
        (SResp.mk none (some (Reply.mk (some
          (CmdResult.mk none (JsLite.num 9) (JsLite.bool true) none none)))))
        (HIState.mk [] 0)).map (fun t => t.1)
      = some (ExecOutcome.called none (CbVal.reply (some (Reply.mk (some
          (CmdResult.mk none (JsLite.num 9) (JsLite.bool true) none none)))))) ∧
    (executeScram testPrims none CryptoMethod.sha256
        (Credential.mk "user" "pencil" "admin" "SCRAM-SHA-256") "abc"
        (SResp.mk none (some (Reply.mk (some
          (CmdResult.mk (some "r=abc,s=QUJD,i=4096") (JsLite.num 7) JsLite.undef none none)))))
        (SResp.mk none (some (Reply.mk (some
          (CmdResult.mk none (JsLite.num 9) (JsLite.bool false) none none)))))
        (SResp.mk none (some (Reply.mk (some
          (CmdResult.mk none (JsLite.num 9) (JsLite.bool true) none none)))))
        (HIState.mk [] 0)).map (fun t => t.2.1.length) = some 3 := by
  obtain ⟨pl1, pl2, st', hnone, hsome⟩ := c7_second_round testPrims none CryptoMethod.sha256
    (Credential.mk "user" "pencil" "admin" "SCRAM-SHA-256") "abc" "pencil"
    "r=abc,s=QUJD,i=4096" "QUJD" (JsLite.num 7) JsLite.undef none none
    (SResp.mk none (some (Reply.mk (some
      (CmdResult.mk none (JsLite.num 9) (JsLite.bool false) none none)))))
    (SResp.mk none (some (Reply.mk (some
      (CmdResult.mk none (JsLite.num 9) (JsLite.bool true) none none)))))
    (HIState.mk [] 0) rfl rfl rfl rfl (by decide)
  have h := (hsome (Reply.mk (some (CmdResult.mk none (JsLite.num 9) (JsLite.bool false) none none)))
    (CmdResult.mk none (JsLite.num 9) (JsLite.bool false) none none) rfl rfl).2 rfl
  rw [h]
  exact ⟨rfl, rfl⟩

lemma dispatchShiftLoop_fst : ∀ l : List Conn, (dispatchShiftLoop l).1 = l := by
  intro l
  induction l with
  | nil => rfl
  | cons c rest ih => simp [dispatchShiftLoop, ih]

lemma dispatchShiftLoop_snd : ∀ l : List Conn, (dispatchShiftLoop l).2 = [] := by
  intro l
  induction l with
  | nil => rfl
  | cons c rest ih => simp [dispatchShiftLoop, ih]

lemma getLast?_cons_match {α : Type} (a : α) (l : List α) :
    (a :: l).getLast?
      = (match l.getLast? with | some x => some x | none => some a) := by
  induction l generalizing a with
  | nil => rfl
  | cons b bs ih =>
    rw [List.getLast?_cons_cons, ih b]
    cases bs.getLast? <;> rfl

lemma outcome_cases (o : Outcome) (h : (outcomeClass o).isSome) :
    (validConn o = true ∧ outcomeClass o = some none ∧ errOfOutcome o = none) ∨
    (validConn o = false ∧ ∃ e, outcomeClass o = some (some e) ∧ errOfOutcome o = some e) := by
  obtain ⟨err, r⟩ := o
  cases err with
  | some e =>
    right
    exact ⟨rfl, e, rfl, rfl⟩
  | none =>
    cases r with
    | none => simp [outcomeClass] at h
    | some rr =>
      obtain ⟨rres⟩ := rr
      cases rres with
      | none => left; exact ⟨rfl, rfl, rfl⟩
      | some res =>
        cases hde : jsTruthyS res.dollarErr with
        | true =>
          right
          refine ⟨?_, MError.resultErr res, ?_, ?_⟩
          · simp [validConn, hde]
          · simp [outcomeClass, hde]
          · simp [errOfOutcome, outcomeClass, hde]
        | false =>
          cases hem : jsTruthyS res.errmsg with
          | true =>
            right
            refine ⟨?_, MError.resultErr res, ?_, ?_⟩
            · simp [validConn, hde, hem]
            · simp [outcomeClass, hde, hem]
            · simp [errOfOutcome, outcomeClass, hde, hem]
          | false =>
            left
            refine ⟨?_, ?_, ?_⟩
            · simp [validConn, hde, hem]
            · simp [outcomeClass, hde, hem]
            · simp [errOfOutcome, outcomeClass, hde, hem]

lemma authAgg_fold_spec (outcomes : List Outcome) (st0 : AggSt)
    (h : ∀ o ∈ outcomes, (outcomeClass o).isSome) :
    outcomes.foldl authAggStep (some st0)
      = some (AggSt.mk
          (match (outcomes.filterMap errOfOutcome).getLast? with
           | some e => some e
           | none => st0.errorObject)
          (st0.numberOfValidConnections + outcomes.countP (fun o => validConn o))) := by
  induction outcomes generalizing st0 with
  | nil => simp
  | cons x xs ih =>
    have hx := h x (by simp)
    have hxs : ∀ o ∈ xs, (outcomeClass o).isSome := fun o ho => h o (by simp [ho])
    rcases outcome_cases x hx with ⟨hv, hcls, herr⟩ | ⟨hv, e, hcls, herr⟩
    · rw [List.foldl_cons]
      have hstep : authAggStep (some st0) x
          = some (AggSt.mk st0.errorObject (st0.numberOfValidConnections + 1)) := by
        simp [authAggStep, hcls]
      rw [hstep, ih _ hxs]
      refine congrArg some ?_
      have hfm : (x :: xs).filterMap errOfOutcome = xs.filterMap errOfOutcome := by
        simp [List.filterMap_cons, herr]
      have hcp : (x :: xs).countP (fun o => validConn o)
          = xs.countP (fun o => validConn o) + 1 := by
        simp [List.countP_cons, hv]
      rw [hfm, hcp]
      dsimp only
      congr 1
      omega
    · rw [List.foldl_cons]
      have hstep : authAggStep (some st0) x
          = some (AggSt.mk (some e) st0.numberOfValidConnections) := by
        simp [authAggStep, hcls]
      rw [hstep, ih _ hxs]
      refine congrArg some ?_
      have hfm : (x :: xs).filterMap errOfOutcome = e :: xs.filterMap errOfOutcome := by
        simp [List.filterMap_cons, herr]
      have hcp : (x :: xs).countP (fun o => validConn o)
          = xs.countP (fun o => validConn o) := by
        simp [List.countP_cons, hv]
      rw [hfm, hcp, getLast?_cons_match]
      cases (xs.filterMap errOfOutcome).getLast? <;> rfl

lemma authAgg_spec (outcomes : List Outcome)
    (h : ∀ o ∈ outcomes, (outcomeClass o).isSome) :
    authAgg outcomes
      = some (AggSt.mk ((outcomes.filterMap errOfOutcome).getLast?)
          (outcomes.countP (fun o => validConn o))) := by
  rw [authAgg, authAgg_fold_spec outcomes (AggSt.mk none 0) h]
  refine congrArg some ?_
  cases (outcomes.filterMap errOfOutcome).getLast? <;> simp

/-- Claim C3 (amended): for a non-empty connection list whose N dispatched
attempts complete with `outcomes`, a per-connection outcome is valid iff its
error is absent and the reply's result carries neither a *truthy* `$err` nor
a *truthy* `errmsg` field (the source tests JavaScript truthiness, so a
present-but-empty error field still counts as valid — see the
counterexample).  At least one valid outcome gives `(null, true)` and
appends the credential to the store de-duplicated; zero valid outcomes give
`(e, false)` with `e` the last-observed per-connection error, or the
synthesized "failed to authenticate using <mechanism>" error when none was
captured.  The caller's connection array is left empty in both cases. -/
theorem c3_auth_aggregation (credentials : Credential) (connections : List Conn)
    (outcomes : List Outcome) (store : List Credential)
    (hconn : connections ≠ []) (hlen : outcomes.length = connections.length)
    (hwf : ∀ o ∈ outcomes, (outcomeClass o).isSome) :
    (outcomes.any (fun o => validConn o) = true →
       authModel credentials connections outcomes store
         = some ((none, some true), [], addCredentials store credentials)) ∧
    (outcomes.any (fun o => validConn o) = false →
       authModel credentials connections outcomes store
         = some ((some (match (outcomes.filterMap errOfOutcome).getLast? with
                  | some e => e
                  | none => MError.mongo
                      ("failed to authenticate using " ++ credentials.mechanism)),
             some false), [], store)) := by
  have hlen0 : ¬(connections.length = 0) := by
    cases connections with
    | nil => exact absurd rfl hconn
    | cons c rest => simp
  have hcore : authModelCore credentials (dispatchShiftLoop connections).1 outcomes store
      = some (authFinish credentials store
          (AggSt.mk ((outcomes.filterMap errOfOutcome).getLast?)
            (outcomes.countP (fun o => validConn o)))) := by
    rw [authModelCore, dispatchShiftLoop_fst, if_neg (by omega : ¬(outcomes.length ≠ connections.length)),
      authAgg_spec outcomes hwf]
  constructor
  · intro hany
    have hpos : 0 < outcomes.countP (fun o => validConn o) := by
      rw [List.countP_pos_iff]
      rw [List.any_eq_true] at hany
      exact hany
    rw [authModel, if_neg hlen0]
    dsimp only
    rw [hcore]
    simp [authFinish, hpos, dispatchShiftLoop_snd]
  · intro hany
    have hzero : outcomes.countP (fun o => validConn o) = 0 := by
      rw [List.countP_eq_zero]
      rw [List.any_eq_false] at hany
      exact hany
    rw [authModel, if_neg hlen0]
    dsimp only
    rw [hcore]
    cases hL : (outcomes.filterMap errOfOutcome).getLast? with
    | none => simp [authFinish, hzero, hL, dispatchShiftLoop_snd]
    | some e => simp [authFinish, hzero, hL, dispatchShiftLoop_snd]

/-- Claim C3 counterexample: a reply whose result *carries* a `$err` field —
with the empty string as value — is counted valid by the source (truthiness
test), so a single-connection call with only that outcome succeeds and
stores the credential, where the claim's "carries neither a `$err` nor an
`errmsg` field" reading demands zero valid outcomes and overall failure. -/
theorem c3_truthiness_counterexample :
    (CmdResult.mk none JsLite.undef JsLite.undef (some "") none).dollarErr.isSome = true ∧
    validConn (Outcome.mk none (some (Reply.mk (some
      (CmdResult.mk none JsLite.undef JsLite.undef (some "") none))))) = true ∧
    authModel testCredA [0]
        [Outcome.mk none (some (Reply.mk (some
          (CmdResult.mk none JsLite.undef JsLite.undef (some "") none))))] []
      = some ((none, some true), [], [testCredA]) := by
  refine ⟨rfl, rfl, rfl⟩

/-- Witness for the amended C3: one failing and one valid outcome over two
connections give overall success and store the credential; two failing
outcomes give the last-observed error. -/
theorem c3_auth_aggregation_witness :
    (authModel testCredA [0, 1]
        [Outcome.mk (some (MError.transport 3)) none,
         Outcome.mk none (some (Reply.mk (some (CmdResult.mk none JsLite.undef JsLite.undef none none))))]
        []
      = some ((none, some true), [], [testCredA])) ∧
    (authModel testCredA [0, 1]
        [Outcome.mk (some (MError.transport 3)) none,
         Outcome.mk (some (MError.transport 4)) none] []
      = some ((some (MError.transport 4), some false), [], [])) := by
  constructor
  · exact (c3_auth_aggregation testCredA [0, 1]
      [Outcome.mk (some (MError.transport 3)) none,
       Outcome.mk none (some (Reply.mk (some (CmdResult.mk none JsLite.undef JsLite.undef none none))))]
      [] (by decide) (by decide) (by decide)).1 (by decide)
  · exact (c3_auth_aggregation testCredA [0, 1]
      [Outcome.mk (some (MError.transport 3)) none,
       Outcome.mk (some (MError.transport 4)) none] []
      (by decide) (by decide) (by decide)).2 (by decide)

lemma reauthCalls_nil_conns (outcomes : Nat → List Outcome) :
    ∀ (creds : List Credential) (i : Nat) (store : List Credential),
      reauthCalls outcomes i creds [] store
        = some (creds.map (fun c => AuthCall.mk c 0 none), [], store) := by
  intro creds
  induction creds with
  | nil => intro i store; rfl
  | cons c rest ih =>
    intro i store
    simp [reauthCalls, ih (i + 1) store]

lemma reauthCalls_cons_conns (outcomes : Nat → List Outcome) (i : Nat) (c : Credential)
    (rest : List Credential) (conns : List Conn) (store : List Credential)
    (h : conns ≠ []) :
    reauthCalls outcomes i (c :: rest) conns store
      = (match authModelCore c conns (outcomes i) store with
         | none => none
         | some (res, store') =>
           some (AuthCall.mk c conns.length res.1
               :: rest.map (fun d => AuthCall.mk d 0 none), [], store')) := by
  have hlen0 : ¬(conns.length = 0) := by
    cases conns with
    | nil => exact absurd rfl h
    | cons a as => simp
  rw [reauthCalls, if_neg hlen0]
  dsimp only
  rw [dispatchShiftLoop_fst, dispatchShiftLoop_snd]
  simp only [reauthCalls_nil_conns outcomes rest (i + 1)]

lemma map_cred_mk_zero (creds : List Credential) :
    (creds.map (fun d => AuthCall.mk d 0 none)).map (fun t => t.cred) = creds := by
  induction creds with
  | nil => rfl
  | cons d rest ih => simp [ih]

lemma filter_dispatched_map_zero (creds : List Credential) :
    (creds.map (fun d => AuthCall.mk d 0 none)).filter
      (fun t => t.dispatched != 0) = [] := by
  induction creds with
  | nil => rfl
  | cons d rest ih => simp [List.filter, ih]

lemma getLast?_err_none (calls : List AuthCall) (hall : ∀ t ∈ calls, t.err = none) :
    (match calls.getLast? with | some t => t.err | none => none) = (none : Option MError) := by
  cases hx : calls.getLast? with
  | none => rfl
  | some t => exact hall t (List.mem_of_mem_getLast? hx)

lemma reauthReport_head_dispatched (c : Credential) (n : Nat) (e : Option MError)
    (creds : List Credential) (h : n ≠ 0) :
    reauthReport (AuthCall.mk c n e :: creds.map (fun d => AuthCall.mk d 0 none)) = e := by
  have hn : ((AuthCall.mk c n e).dispatched != 0) = true := by
    simp [h]
  rw [reauthReport, List.filter_cons, if_pos hn, filter_dispatched_map_zero creds]
  rfl

lemma reauthReport_all_immediate (creds : List Credential) :
    reauthReport (creds.map (fun d => AuthCall.mk d 0 none)) = none := by
  rw [reauthReport, filter_dispatched_map_zero creds]
  exact getLast?_err_none _ (by
    intro t ht
    rw [List.mem_map] at ht
    obtain ⟨d, -, hd⟩ := ht
    rw [← hd])

lemma filterMap_err_map_none (creds : List Credential) :
    (creds.map (fun d => AuthCall.mk d 0 none)).filterMap (fun t => t.err) = [] := by
  induction creds with
  | nil => rfl
  | cons d rest ih => simp [List.filterMap_cons, ih]

/-- Claim C1: `reauthenticate` invokes `_auth` exactly once per credential of
the store snapshot, in order, and its callback reports `(e, null)` where `e`
is the error of the last credential whose replay produced one — `null` when
every replay succeeded.  (With a non-empty connection list only the first
credential's `_auth` actually dispatches connections — the later calls see
the array already emptied and complete trivially — so the first credential's
replay is both the only one that can produce an error and the one that
completes last.) -/
theorem c1_reauthenticate_reports_last_error (store0 : List Credential)
    (connections : List Conn) (outcomes : Nat → List Outcome)
    (calls : List AuthCall) (res : Option MError × Option Bool)
    (connsF : List Conn) (storeF : List Credential)
    (h : reauthModel store0 connections outcomes = some (calls, res, connsF, storeF)) :
    calls.map (fun t => t.cred) = store0 ∧
    res = ((calls.filterMap (fun t => t.err)).getLast?, none) := by
  rw [reauthModel] at h
  by_cases hs : store0.length = 0
  · rw [if_pos hs] at h
    have hs0 : store0 = [] := List.length_eq_zero.mp hs
    simp only [Option.some.injEq, Prod.mk.injEq] at h
    obtain ⟨h1, h2, -⟩ := h
    subst hs0
    rw [← h1, ← h2]
    exact ⟨rfl, rfl⟩
  · rw [if_neg hs] at h
    cases store0 with
    | nil => exact absurd rfl hs
    | cons c rest =>
      by_cases hc : connections = []
      · subst hc
        rw [reauthCalls_nil_conns outcomes (c :: rest) 0 (c :: rest)] at h
        simp only [Option.some.injEq, Prod.mk.injEq] at h
        obtain ⟨h1, h2, -⟩ := h
        rw [← h1, ← h2]
        constructor
        · exact map_cred_mk_zero (c :: rest)
        · rw [reauthReport_all_immediate (c :: rest), filterMap_err_map_none (c :: rest)]
          rfl
      · rw [reauthCalls_cons_conns outcomes 0 c rest connections (c :: rest) hc] at h
        cases hcore : authModelCore c connections (outcomes 0) (c :: rest) with
        | none =>
          rw [hcore] at h
          exact absurd h (by simp)
        | some t =>
          obtain ⟨res0, store'⟩ := t
          rw [hcore] at h
          simp only [Option.some.injEq, Prod.mk.injEq] at h
          obtain ⟨h1, h2, -⟩ := h
          rw [← h1, ← h2]
          constructor
          · show AuthCall.cred (AuthCall.mk c connections.length res0.1)
                :: (rest.map (fun d => AuthCall.mk d 0 none)).map (fun t => t.cred)
                = c :: rest
            rw [map_cred_mk_zero rest]
          · have hn : connections.length ≠ 0 := by
              cases connections with
              | nil => exact absurd rfl hc
              | cons a as => simp
            rw [reauthReport_head_dispatched c connections.length res0.1 rest hn]
            cases he : res0.1 with
            | none =>
              rw [List.filterMap_cons]
              simp only [he]
              rw [filterMap_err_map_none rest]
              rfl
            | some e =>
              rw [List.filterMap_cons]
              simp only [he]
              rw [filterMap_err_map_none rest]
              rfl

/-- Witness for C1: two stored credentials, one connection whose replay for
the first credential fails with a transport error; `reauthenticate` calls
`_auth` once per credential and reports that error with a `null` result. -/
theorem c1_reauthenticate_witness :
    reauthModel [testCredA, testCredB] [7]
        (fun _ => [Outcome.mk (some (MError.transport 3)) none])
      = some ([AuthCall.mk testCredA 1 (some (MError.transport 3)),
               AuthCall.mk testCredB 0 none],
          (some (MError.transport 3), none), [], [testCredA, testCredB]) ∧
    [AuthCall.mk testCredA 1 (some (MError.transport 3)),
      AuthCall.mk testCredB 0 none].map (fun t => t.cred) = [testCredA, testCredB] ∧
    ((some (MError.transport 3), none) : Option MError × Option Bool)
      = (([AuthCall.mk testCredA 1 (some (MError.transport 3)),
           AuthCall.mk testCredB 0 none].filterMap (fun t => t.err)).getLast?, none) := by
  have h : reauthModel [testCredA, testCredB] [7]
      (fun _ => [Outcome.mk (some (MError.transport 3)) none])
    = some ([AuthCall.mk testCredA 1 (some (MError.transport 3)),
             AuthCall.mk testCredB 0 none],
        (some (MError.transport 3), none), [], [testCredA, testCredB]) := by decide
  have hc := c1_reauthenticate_reports_last_error [testCredA, testCredB] [7]
    (fun _ => [Outcome.mk (some (MError.transport 3)) none])
    [AuthCall.mk testCredA 1 (some (MError.transport 3)), AuthCall.mk testCredB 0 none]
    (some (MError.transport 3), none) [] [testCredA, testCredB] h
  exact ⟨h, hc.1, hc.2⟩

/-- Claim C9: `_auth`'s dispatch loop removes every element of the caller's
`connections` array with `shift`, so after dispatch the same array has
length zero; inside one `reauthenticate` call, every credential after the
first therefore observes zero connections (its `_auth` call dispatches
nothing and completes trivially), and the array is still empty when
`reauthenticate` finishes. -/
theorem c9_connections_array_emptied :
    (∀ (cred : Credential) (connections : List Conn) (outcomes : List Outcome)
       (store : List Credential)
       (t : (Option MError × Option Bool) × List Conn × List Credential),
       connections ≠ [] →
       authModel cred connections outcomes store = some t →
       t.2.1 = []) ∧
    (∀ (c0 c1 : Credential) (rest : List Credential) (connections : List Conn)
       (outcomes : Nat → List Outcome) (calls : List AuthCall)
       (res : Option MError × Option Bool) (connsF : List Conn)
       (storeF : List Credential),
       connections ≠ [] →
       reauthModel (c0 :: c1 :: rest) connections outcomes
         = some (calls, res, connsF, storeF) →
       connsF = [] ∧
       calls.tail = (c1 :: rest).map (fun d => AuthCall.mk d 0 none) ∧
       calls.head?.map (fun u => u.dispatched) = some connections.length) := by
  constructor
  · intro cred connections outcomes store t hne h
    have hlen0 : ¬(connections.length = 0) := by
      cases connections with
      | nil => exact absurd rfl hne
      | cons a as => simp
    rw [authModel, if_neg hlen0] at h
    dsimp only at h
    cases hcore : authModelCore cred (dispatchShiftLoop connections).1 outcomes store with
    | none =>
      rw [hcore] at h
      exact absurd h (by simp)
    | some u =>
      obtain ⟨res, store'⟩ := u
      rw [hcore] at h
      simp only [Option.some.injEq] at h
      rw [← h]
      exact dispatchShiftLoop_snd connections
  · intro c0 c1 rest connections outcomes calls res connsF storeF hne h
    have hlen0 : ¬((c0 :: c1 :: rest).length = 0) := by simp
    rw [reauthModel, if_neg hlen0,
      reauthCalls_cons_conns outcomes 0 c0 (c1 :: rest) connections (c0 :: c1 :: rest) hne] at h
    cases hcore : authModelCore c0 connections (outcomes 0) (c0 :: c1 :: rest) with
    | none =>
      rw [hcore] at h
      exact absurd h (by simp)
    | some u =>
      obtain ⟨res0, store'⟩ := u
      rw [hcore] at h
      simp only [Option.some.injEq, Prod.mk.injEq] at h
      obtain ⟨h1, -, h3, -⟩ := h
      rw [← h1, ← h3]
      exact ⟨rfl, rfl, rfl⟩

/-- Witness for C9 at a concrete two-credential, two-connection call. -/
theorem c9_connections_array_emptied_witness :
    (authModel testCredA [4, 5]
        [Outcome.mk (some (MError.transport 1)) none,
         Outcome.mk (some (MError.transport 2)) none] []
      = some ((some (MError.transport 2), some false), [], [])) ∧
    (((some (MError.transport 2), some false), ([] : List Conn),
        ([] : List Credential)).2.1 = []) ∧
    (reauthModel [testCredA, testCredB] [4, 5]
        (fun _ => [Outcome.mk (some (MError.transport 1)) none,
                   Outcome.mk (some (MError.transport 2)) none])
      = some ([AuthCall.mk testCredA 2 (some (MError.transport 2)),
               AuthCall.mk testCredB 0 none],
          (some (MError.transport 2), none), [], [testCredA, testCredB])) ∧
    (([] : List Conn) = [] ∧
     [AuthCall.mk testCredA 2 (some (MError.transport 2)),
       AuthCall.mk testCredB 0 none].tail
       = [testCredB].map (fun d => AuthCall.mk d 0 none) ∧
     [AuthCall.mk testCredA 2 (some (MError.transport 2)),
       AuthCall.mk testCredB 0 none].head?.map (fun u => u.dispatched)
       = some ([4, 5] : List Conn).length) := by
  refine ⟨by decide, ?_, by decide, ?_⟩
  · exact c9_connections_array_emptied.1 testCredA [4, 5]
      [Outcome.mk (some (MError.transport 1)) none,
       Outcome.mk (some (MError.transport 2)) none] []
      ((some (MError.transport 2), some false), [], []) (by decide) (by decide)
  · exact c9_connections_array_emptied.2 testCredA testCredB [] [4, 5]
      (fun _ => [Outcome.mk (some (MError.transport 1)) none,
                 Outcome.mk (some (MError.transport 2)) none])
      [AuthCall.mk testCredA 2 (some (MError.transport 2)),
       AuthCall.mk testCredB 0 none]
      (some (MError.transport 2), none) [] [testCredA, testCredB]
      (by decide) (by decide)
